import Mathlib

/-!
# utils/config.go

Shallow embedding of the configuration pipeline of `utils/config.go`:
path resolution (`FindConfigFile`, `FindDir`), the provider loader
(`loadOAuthProviders`), the load orchestration (`LoadConfig`) and the client
projection (`getClientConfig`).

Conventions.
* Go strings are Lean strings.  The one byte-level test of the file,
  `dir[len(dir)-1:] != "/"`, compares the last byte with `/`; in UTF-8 the byte
  `0x2F` only ever encodes the character `/`, so the test is the test on the last
  character.
* A Go `map[string]V` is an association list with each key at most once; a nil
  map is `none`.  `range` over a map visits the keys in an order the language
  leaves unspecified, so every loop over a map takes the visiting order as an
  argument.
* A pointer `*T` is `Option T`; dereferencing `none` is a panic.
* A function that can panic returns `Except String _`, the string being the
  panic message.
* The file system, the JSON decoder and the functions of package `model` are
  not part of this file; they are fields of `Env`.
-/

namespace Platform

/-! ## Go maps -/

/-- Go `map[string]V`: an association list, each key at most once. -/
abbrev GoMap (V : Type) := List (String × V)

/-- The value stored under `k`, as in `v, ok := m[k]`. -/
def mapLookup {V : Type} : GoMap V → String → Option V
  | [], _ => none
  | (k0, v0) :: rest, k => if k0 = k then some v0 else mapLookup rest k

/-- The assignment `m[k] = v`: overwrite the entry of `k`, or add one. -/
def mapStore {V : Type} : GoMap V → String → V → GoMap V
  | [], k, v => [(k, v)]
  | (k0, v0) :: rest, k, v =>
    if k0 = k then (k, v) :: rest else (k0, v0) :: mapStore rest k v

/-- The keys of a map. -/
def mapKeys {V : Type} (m : GoMap V) : List String := m.map Prod.fst

/-! ## The configuration (package `model`) -/

/-- Modelled from the spec: `model.SSOSettings`, whose declaration is not in this
file.  `Enable` is the one field `utils/config.go` reads; `Id` and `Secret`
stand for the credentials of the provider. -/
structure SSOSettings where
  Enable : Bool
  Id : String
  Secret : String
deriving DecidableEq, Repr

/-- Modelled from the spec: the team group of `model.Config` (fields read by this file). -/
structure TeamSettings where
  SiteName : String
  EnableTeamCreation : Bool
  EnableUserCreation : Bool
  RestrictTeamNames : Option Bool
  EnableTeamListing : Option Bool
deriving DecidableEq, Repr

/-- Modelled from the spec: the service group of `model.Config` (fields read by this file). -/
structure ServiceSettings where
  EnableOAuthServiceProvider : Bool
  SegmentDeveloperKey : String
  GoogleDeveloperKey : String
  EnableIncomingWebhooks : Bool
  EnableOutgoingWebhooks : Bool
  EnablePostUsernameOverride : Bool
  EnablePostIconOverride : Bool
  EnableDeveloper : Option Bool
deriving DecidableEq, Repr

/-- Modelled from the spec: the email group of `model.Config`; `SMTPPassword`
stands for the credentials of the group, which this file never reads. -/
structure EmailSettings where
  SendEmailNotifications : Bool
  EnableSignUpWithEmail : Bool
  RequireEmailVerification : Bool
  FeedbackEmail : String
  SMTPPassword : String
deriving DecidableEq, Repr

/-- Modelled from the spec: the privacy group of `model.Config`. -/
structure PrivacySettings where
  ShowEmailAddress : Bool
deriving DecidableEq, Repr

/-- Modelled from the spec: the support group of `model.Config`, six `*string`. -/
structure SupportSettings where
  TermsOfServiceLink : Option String
  PrivacyPolicyLink : Option String
  AboutLink : Option String
  HelpLink : Option String
  ReportAProblemLink : Option String
  SupportEmail : Option String
deriving DecidableEq, Repr

/-- Modelled from the spec: the file-storage group of `model.Config` (fields read by this file). -/
structure FileSettings where
  DriverName : String
  Directory : String
  EnablePublicLink : Bool
  ProfileHeight : Int
  ProfileWidth : Int
deriving DecidableEq, Repr

/-- Modelled from the spec: the LDAP group of `model.Config`. -/
structure LdapSettings where
  Enable : Option Bool
deriving DecidableEq, Repr

/-- Modelled from the spec: `model.Config`, the single structure of nested
setting groups.  The groups and fields are those `utils/config.go` reads or
writes; `Internal` holds every other setting (data sources, salts, keys). -/
structure Config where
  TeamSettings : TeamSettings
  ServiceSettings : ServiceSettings
  EmailSettings : EmailSettings
  PrivacySettings : PrivacySettings
  SupportSettings : SupportSettings
  FileSettings : FileSettings
  LdapSettings : LdapSettings
  GitLabSettings : SSOSettings
  GoogleSettings : SSOSettings
  OAuthSettings : Option (GoMap SSOSettings)
  OAuthConfigDir : String
  Internal : List (String × String)
deriving DecidableEq, Repr

/-- Modelled from the spec: `model.IMAGE_DRIVER_LOCAL`, the name of the local
file-storage driver. -/
def IMAGE_DRIVER_LOCAL : String := "local"

/-- Modelled from the spec: the build metadata variables of package `model`
(`CurrentVersion`, `BuildNumber`, `BuildDate`, `BuildHash`,
`BuildEnterpriseReady`). -/
structure BuildInfo where
  CurrentVersion : String
  BuildNumber : String
  BuildDate : String
  BuildHash : String
  BuildEnterpriseReady : String
deriving DecidableEq, Repr

/-! ## Identity providers (packages `model/oauth` and `einterfaces`) -/

/-- Modelled from the spec: `oauth.OAuthProvider`, the provider type this file
downcasts to; `DisplayName` is the field it reads. -/
structure OAuthProvider where
  DisplayName : String
deriving DecidableEq, Repr

/-- Modelled from the spec: a non-nil value of the interface
`einterfaces.OauthProvider`, the polymorphic provider handle of the registry.
Its dynamic type is `*oauth.OAuthProvider` (a pointer, possibly nil) or another
type implementing the interface. -/
inductive ProviderHandle where
  | custom (p : Option OAuthProvider)
  | foreign (typeName : String)
deriving DecidableEq, Repr

/-- Modelled from the spec: the process-wide identity provider registry of
package `einterfaces`, a map from provider name to provider handle. -/
abbrev Registry := GoMap ProviderHandle

/-- Modelled from the spec: `einterfaces.RegisterOauthProvider`, a write by
name (last write wins). -/
def RegisterOauthProvider (reg : Registry) (name : String) (h : ProviderHandle) : Registry :=
  mapStore reg name h

/-- Modelled from the spec: `einterfaces.GetOauthProvider`, a lookup by name;
`none` is the nil interface returned for a name that is not registered. -/
def GetOauthProvider (reg : Registry) (name : String) : Option ProviderHandle :=
  mapLookup reg name

/-! ## The environment -/

/-- An opened configuration file: what `json.Decoder.Decode` reads from it and
the modification time `file.Stat()` reports. -/
structure ConfigFile where
  decoded : Except String Config
  modTime : Except String Int

/-- What `oauth.LoadOAuthProviderFromSettings` returns for a file it decodes:
provider name, provider (a `*oauth.OAuthProvider`, possibly nil) and settings
(a `*model.SSOSettings`, taken to be non-nil when the call reports no error). -/
structure ProviderFile where
  providerName : String
  provider : Option OAuthProvider
  settings : SSOSettings
deriving DecidableEq, Repr

/-- Everything `utils/config.go` calls outside itself. -/
structure Env where
  /-- The call `os.Stat(path)` returns no error. -/
  statOk : String → Bool
  /-- The path returned by `filepath.Abs(path)`; the file discards its error. -/
  abs : String → String
  /-- The call `os.Open(path)`. -/
  osOpen : String → Except String ConfigFile
  /-- The method `(*model.Config).SetDefaults`. -/
  SetDefaults : Config → Config
  /-- The method `(*model.Config).IsValid`; `some msg` is an `AppError` with that message. -/
  IsValid : Config → Option String
  /-- The call `filepath.Glob(filepath.Join(dir, "*.json"))` as a function of `dir`;
  for `dir = ""` the pattern is `*.json`, the JSON files of the working directory. -/
  globJson : String → Except String (List String)
  /-- The call `oauth.LoadOAuthProviderFromSettings(filePath)`. -/
  LoadOAuthProviderFromSettings : String → Except String ProviderFile
  /-- The order in which `range` visits a map with the given keys. -/
  rangeOrder : List String → List String
  /-- The build metadata of package `model`. -/
  build : BuildInfo

/-! ## Path resolver -/

/-- `FindConfigFile` (lines 44-56). -/
def FindConfigFile (env : Env) (fileName : String) : String :=
  if env.statOk ("/tmp/" ++ fileName) then
    env.abs ("/tmp/" ++ fileName)
  else if env.statOk ("./config/" ++ fileName) then
    env.abs ("./config/" ++ fileName)
  else if env.statOk ("../config/" ++ fileName) then
    env.abs ("../config/" ++ fileName)
  else if env.statOk fileName then
    env.abs fileName
  else
    fileName

/-- `FindDir` (lines 58-69). -/
def FindDir (env : Env) (dir : String) : String :=
  let fileName :=
    if env.statOk ("./" ++ dir ++ "/") then
      env.abs ("./" ++ dir ++ "/")
    else if env.statOk ("../" ++ dir ++ "/") then
      env.abs ("../" ++ dir ++ "/")
    else if env.statOk ("/tmp/" ++ dir) then
      env.abs ("/tmp/" ++ dir)
    else
      "."
  fileName ++ "/"

/-- The candidates of the file search as the specification lists them. -/
def fileCandidates (name : String) : List String :=
  ["/tmp/" ++ name, "./config/" ++ name, "../config/" ++ name, name]

/-- The file search as the specification words it: the absolute path of the
first candidate that exists, the name itself when none does. -/
def resolveFileSpec (env : Env) (name : String) : String :=
  match (fileCandidates name).find? env.statOk with
  | some p => env.abs p
  | none => name

/-- The candidates of the directory search as the specification lists them. -/
def dirCandidates (name : String) : List String :=
  ["./" ++ name ++ "/", "../" ++ name ++ "/", "/tmp/" ++ name]

/-- The directory search as the specification words it: the absolute path of
the first candidate that exists, `.` when none does, then a separator. -/
def resolveDirSpec (env : Env) (name : String) : String :=
  match (dirCandidates name).find? env.statOk with
  | some p => env.abs p ++ "/"
  | none => "./"

/-! ## Directory normalisation (lines 211-216 of `LoadConfig`) -/

/-- The test `len(dir) > 0 && dir[len(dir)-1:] != "/"`. -/
def needsSeparator (dir : String) : Bool :=
  match dir.data.getLast? with
  | none => false
  | some ch => ch != '/'

/-- Lines 211-216: a local storage directory gets a trailing separator. -/
def normalizeDirectory (config : Config) : Config :=
  if config.FileSettings.DriverName = IMAGE_DRIVER_LOCAL then
    if needsSeparator config.FileSettings.Directory then
      { config with FileSettings :=
          { config.FileSettings with Directory := config.FileSettings.Directory ++ "/" } }
    else config
  else config

/-! ## Extension loader -/

/-- The state the loader works on: the returned error, the settings map of the
configuration and the provider registry. -/
structure LoaderState where
  err : Option String
  settings : Option (GoMap SSOSettings)
  registry : Registry
deriving DecidableEq, Repr

/-- Lines 162-164: a nil settings map is replaced by a fresh empty map. -/
def makeIfNil (settings : Option (GoMap SSOSettings)) : GoMap SSOSettings :=
  match settings with
  | none => []
  | some m => m

/-- The loop of lines 151-167 over the globbed provider files. -/
def loadProviderFiles (env : Env) :
    List String → Option (GoMap SSOSettings) → Registry → LoaderState
  | [], settings, reg => ⟨none, settings, reg⟩
  | filePath :: rest, settings, reg =>
    match env.LoadOAuthProviderFromSettings filePath with
    | .error err =>
      ⟨some ("Error loading oauth provider settings from " ++ filePath ++ ": " ++ err),
        settings, reg⟩
    | .ok f =>
      if f.settings.Enable = false then
        loadProviderFiles env rest settings reg
      else
        match f.provider with
        | none => ⟨some "Internal OAuth provider missing after load from settings", settings, reg⟩
        | some p =>
          loadProviderFiles env rest
            (some (mapStore (makeIfNil settings) f.providerName f.settings))
            (RegisterOauthProvider reg f.providerName (.custom (some p)))

/-- `loadOAuthProviders` (lines 144-170).  The test `cfg.OAuthConfigDir == ""`
of line 145 has an empty body, so both of its branches continue with the glob
of line 147. -/
def loadOAuthProviders (env : Env) (cfg : Config) (reg : Registry) :
    Option String × Config × Registry :=
  match env.globJson cfg.OAuthConfigDir with
  | .error err =>
    (some ("Error looking for oauth provider files in " ++ cfg.OAuthConfigDir ++ ": " ++ err),
      cfg, reg)
  | .ok providers =>
    let r := loadProviderFiles env providers cfg.OAuthSettings reg
    (r.err, { cfg with OAuthSettings := r.settings }, r.registry)

/-! ## Client projection -/

/-- A value of the projection: a string, or the list of display names. -/
inductive PropValue where
  | str (s : String)
  | strs (l : List String)
deriving DecidableEq, Repr

/-- `ClientConfig`, a `map[string]interface{}` (line 28). -/
abbrev ClientConfig := GoMap PropValue

/-- `strconv.FormatBool`. -/
def FormatBool (b : Bool) : String := if b then "true" else "false"

/-- The dereference `*p`; a nil pointer panics. -/
def deref {α : Type} (p : Option α) : Except String α :=
  match p with
  | some a => .ok a
  | none => .error "runtime error: invalid memory address or nil pointer dereference"

/-- The loop of lines 259-266: `visit` is the order in which `range` visits the
keys of `c.OAuthSettings`, `acc` is `providerNames`. -/
def collectDisplayNames (reg : Registry) : List String → List String → Except String (List String)
  | [], acc => .ok acc
  | providerName :: rest, acc =>
    match GetOauthProvider reg providerName with
    | none => collectDisplayNames reg rest acc
    | some (.foreign typeName) =>
      .error ("interface conversion: einterfaces.OauthProvider is " ++ typeName ++
        ", not *oauth.OAuthProvider")
    | some (.custom none) =>
      .error "runtime error: invalid memory address or nil pointer dereference"
    | some (.custom (some p)) => collectDisplayNames reg rest (acc ++ [p.DisplayName])

/-- `getClientConfig` (lines 222-288).  `visit` is the order in which the `range`
of line 259 visits the keys of `c.OAuthSettings`. -/
def getClientConfig (b : BuildInfo) (reg : Registry) (visit : List String) (c : Config) :
    Except String ClientConfig := do
  let props : ClientConfig := []
  let props := mapStore props "Version" (.str b.CurrentVersion)
  let props := mapStore props "BuildNumber" (.str b.BuildNumber)
  let props := mapStore props "BuildDate" (.str b.BuildDate)
  let props := mapStore props "BuildHash" (.str b.BuildHash)
  let props := mapStore props "BuildEnterpriseReady" (.str b.BuildEnterpriseReady)
  let props := mapStore props "SiteName" (.str c.TeamSettings.SiteName)
  let props := mapStore props "EnableTeamCreation"
    (.str (FormatBool c.TeamSettings.EnableTeamCreation))
  let props := mapStore props "EnableUserCreation"
    (.str (FormatBool c.TeamSettings.EnableUserCreation))
  let restrictTeamNames ← deref c.TeamSettings.RestrictTeamNames
  let props := mapStore props "RestrictTeamNames" (.str (FormatBool restrictTeamNames))
  let enableTeamListing ← deref c.TeamSettings.EnableTeamListing
  let props := mapStore props "EnableTeamListing" (.str (FormatBool enableTeamListing))
  let props := mapStore props "EnableOAuthServiceProvider"
    (.str (FormatBool c.ServiceSettings.EnableOAuthServiceProvider))
  let props := mapStore props "SegmentDeveloperKey" (.str c.ServiceSettings.SegmentDeveloperKey)
  let props := mapStore props "GoogleDeveloperKey" (.str c.ServiceSettings.GoogleDeveloperKey)
  let props := mapStore props "EnableIncomingWebhooks"
    (.str (FormatBool c.ServiceSettings.EnableIncomingWebhooks))
  let props := mapStore props "EnableOutgoingWebhooks"
    (.str (FormatBool c.ServiceSettings.EnableOutgoingWebhooks))
  let props := mapStore props "EnablePostUsernameOverride"
    (.str (FormatBool c.ServiceSettings.EnablePostUsernameOverride))
  let props := mapStore props "EnablePostIconOverride"
    (.str (FormatBool c.ServiceSettings.EnablePostIconOverride))
  let enableDeveloper ← deref c.ServiceSettings.EnableDeveloper
  let props := mapStore props "EnableDeveloper" (.str (FormatBool enableDeveloper))
  let props := mapStore props "SendEmailNotifications"
    (.str (FormatBool c.EmailSettings.SendEmailNotifications))
  let props := mapStore props "EnableSignUpWithEmail"
    (.str (FormatBool c.EmailSettings.EnableSignUpWithEmail))
  let props := mapStore props "RequireEmailVerification"
    (.str (FormatBool c.EmailSettings.RequireEmailVerification))
  let props := mapStore props "FeedbackEmail" (.str c.EmailSettings.FeedbackEmail)
  let props := mapStore props "EnableSignUpWithGitLab" (.str (FormatBool c.GitLabSettings.Enable))
  let props := mapStore props "EnableSignUpWithGoogle" (.str (FormatBool c.GoogleSettings.Enable))
  let props ←
    match c.OAuthSettings with
    | some _ => do
      let props := mapStore props "EnableSignUpWithOAuth" (.str (FormatBool true))
      let providerNames ← collectDisplayNames reg visit []
      pure (mapStore props "OAuthProviderDisplayNames" (.strs providerNames))
    | none => pure (mapStore props "EnableSignUpWithOAuth" (.str (FormatBool false)))
  let props := mapStore props "ShowEmailAddress"
    (.str (FormatBool c.PrivacySettings.ShowEmailAddress))
  let termsOfServiceLink ← deref c.SupportSettings.TermsOfServiceLink
  let props := mapStore props "TermsOfServiceLink" (.str termsOfServiceLink)
  let privacyPolicyLink ← deref c.SupportSettings.PrivacyPolicyLink
  let props := mapStore props "PrivacyPolicyLink" (.str privacyPolicyLink)
  let aboutLink ← deref c.SupportSettings.AboutLink
  let props := mapStore props "AboutLink" (.str aboutLink)
  let helpLink ← deref c.SupportSettings.HelpLink
  let props := mapStore props "HelpLink" (.str helpLink)
  let reportAProblemLink ← deref c.SupportSettings.ReportAProblemLink
  let props := mapStore props "ReportAProblemLink" (.str reportAProblemLink)
  let supportEmail ← deref c.SupportSettings.SupportEmail
  let props := mapStore props "SupportEmail" (.str supportEmail)
  let props := mapStore props "EnablePublicLink"
    (.str (FormatBool c.FileSettings.EnablePublicLink))
  let props := mapStore props "ProfileHeight" (.str (toString c.FileSettings.ProfileHeight))
  let props := mapStore props "ProfileWidth" (.str (toString c.FileSettings.ProfileWidth))
  let enableLdap ← deref c.LdapSettings.Enable
  let props := mapStore props "EnableLdap" (.str (FormatBool enableLdap))
  return props

/-- The order in which the `range` of line 259 visits the settings map of `c`. -/
def visitOrder (env : Env) (c : Config) : List String :=
  match c.OAuthSettings with
  | some m => env.rangeOrder (mapKeys m)
  | none => []

/-! ## Load orchestration -/

/-- The process-wide state: the package variables of lines 30-34 and the
provider registry of package `einterfaces`. -/
structure World where
  Cfg : Config
  ClientCfg : ClientConfig
  CfgLastModified : Int
  CfgFileName : String
  oauthProviders : Registry
deriving DecidableEq, Repr

/-- How a call ends: it returns, or it panics with a message. -/
inductive Outcome where
  | returned
  | panicked (msg : String)
deriving DecidableEq, Repr

/-- `LoadConfig` (lines 175-220).  `configureLog` and `TestConnection` act on the
logging backend and the network only and leave the state modelled here as it
is.  The error of `loadOAuthProviders` is logged and dropped (lines 204-206). -/
def LoadConfig (env : Env) (fileName : String) (w : World) : Outcome × World :=
  let fileName := FindConfigFile env fileName
  match env.osOpen fileName with
  | .error err => (.panicked ("Error opening config file=" ++ fileName ++ ", err=" ++ err), w)
  | .ok file =>
    match file.decoded with
    | .error err => (.panicked ("Error decoding config file=" ++ fileName ++ ", err=" ++ err), w)
    | .ok config =>
      match file.modTime with
      | .error err =>
        (.panicked ("Error getting config info file=" ++ fileName ++ ", err=" ++ err), w)
      | .ok modTime =>
        let w := { w with CfgLastModified := modTime, CfgFileName := fileName }
        let config := env.SetDefaults config
        match env.IsValid config with
        | some message =>
          (.panicked ("Error validating config file=" ++ fileName ++ ", err=" ++ message), w)
        | none =>
          let r := loadOAuthProviders env config w.oauthProviders
          let config := r.2.1
          let w := { w with oauthProviders := r.2.2 }
          let config := normalizeDirectory config
          let w := { w with Cfg := config }
          match getClientConfig env.build w.oauthProviders (visitOrder env config) config with
          | .error msg => (.panicked msg, w)
          | .ok props => (.returned, { w with ClientCfg := props })

/-! ## Specification vocabulary for the loader -/

/-- The settings bound to a provider name in a settings map, if any. -/
def lookupSettings (settings : Option (GoMap SSOSettings)) (name : String) : Option SSOSettings :=
  match settings with
  | some m => mapLookup m name
  | none => none

/-- The settings bound to a provider name in a configuration, if any. -/
def settingsOf (c : Config) (name : String) : Option SSOSettings :=
  lookupSettings c.OAuthSettings name

/-- The last file, in glob order, that is enabled and carries the name. -/
def lastEnabled (fs : List ProviderFile) (name : String) : Option ProviderFile :=
  (fs.filter (fun f => f.settings.Enable && decide (f.providerName = name))).getLast?

/-! ## Specification vocabulary for the projection -/

/-- The 37 keys written in `getClientConfig`, in the order of the source. -/
def clientKeys : List String :=
  ["Version", "BuildNumber", "BuildDate", "BuildHash", "BuildEnterpriseReady",
   "SiteName", "EnableTeamCreation", "EnableUserCreation", "RestrictTeamNames",
   "EnableTeamListing", "EnableOAuthServiceProvider", "SegmentDeveloperKey",
   "GoogleDeveloperKey", "EnableIncomingWebhooks", "EnableOutgoingWebhooks",
   "EnablePostUsernameOverride", "EnablePostIconOverride", "EnableDeveloper",
   "SendEmailNotifications", "EnableSignUpWithEmail", "RequireEmailVerification",
   "FeedbackEmail", "EnableSignUpWithGitLab", "EnableSignUpWithGoogle",
   "EnableSignUpWithOAuth", "OAuthProviderDisplayNames", "ShowEmailAddress",
   "TermsOfServiceLink", "PrivacyPolicyLink", "AboutLink", "HelpLink",
   "ReportAProblemLink", "SupportEmail", "EnablePublicLink", "ProfileHeight",
   "ProfileWidth", "EnableLdap"]

/-- The 36 keys assigned on every path of `getClientConfig`. -/
def alwaysKeys : List String :=
  ["Version", "BuildNumber", "BuildDate", "BuildHash", "BuildEnterpriseReady",
   "SiteName", "EnableTeamCreation", "EnableUserCreation", "RestrictTeamNames",
   "EnableTeamListing", "EnableOAuthServiceProvider", "SegmentDeveloperKey",
   "GoogleDeveloperKey", "EnableIncomingWebhooks", "EnableOutgoingWebhooks",
   "EnablePostUsernameOverride", "EnablePostIconOverride", "EnableDeveloper",
   "SendEmailNotifications", "EnableSignUpWithEmail", "RequireEmailVerification",
   "FeedbackEmail", "EnableSignUpWithGitLab", "EnableSignUpWithGoogle",
   "EnableSignUpWithOAuth", "ShowEmailAddress",
   "TermsOfServiceLink", "PrivacyPolicyLink", "AboutLink", "HelpLink",
   "ReportAProblemLink", "SupportEmail", "EnablePublicLink", "ProfileHeight",
   "ProfileWidth", "EnableLdap"]

/-- The optional pointer fields `getClientConfig` dereferences are all set. -/
def pointersSet (c : Config) : Prop :=
  c.TeamSettings.RestrictTeamNames ≠ none ∧ c.TeamSettings.EnableTeamListing ≠ none ∧
  c.ServiceSettings.EnableDeveloper ≠ none ∧
  c.SupportSettings.TermsOfServiceLink ≠ none ∧ c.SupportSettings.PrivacyPolicyLink ≠ none ∧
  c.SupportSettings.AboutLink ≠ none ∧ c.SupportSettings.HelpLink ≠ none ∧
  c.SupportSettings.ReportAProblemLink ≠ none ∧ c.SupportSettings.SupportEmail ≠ none ∧
  c.LdapSettings.Enable ≠ none

/-- The display name the loop of lines 259-266 appends for a provider name:
that of the registered provider, nothing for a name the registry does not hold. -/
def displayNameOf (reg : Registry) (name : String) : Option String :=
  match GetOauthProvider reg name with
  | some (.custom (some p)) => some p.DisplayName
  | _ => none

/-- The registry entry of a name is absent or a non-nil `*oauth.OAuthProvider`,
so the downcast of line 264 and the field access of line 265 succeed. -/
def castable (reg : Registry) (name : String) : Prop :=
  GetOauthProvider reg name = none ∨
    ∃ p, GetOauthProvider reg name = some (.custom (some p))

/-- The provider names of the settings map (none for a nil map). -/
def providerNames (c : Config) : List String :=
  match c.OAuthSettings with
  | some m => mapKeys m
  | none => []

/-! ## Example inputs -/

/-- A configuration with every optional field set, as after `SetDefaults`. -/
def exampleConfig : Config where
  TeamSettings := ⟨"Mattermost", true, true, some true, some false⟩
  ServiceSettings := ⟨false, "", "", true, true, false, false, some false⟩
  EmailSettings := ⟨false, true, false, "feedback@example.com", "smtp-password"⟩
  PrivacySettings := ⟨true⟩
  SupportSettings := ⟨some "/static/help/terms.html", some "/static/help/privacy.html",
    some "/static/help/about.html", some "/static/help/help.html",
    some "/static/help/report_problem.html", some "feedback@example.com"⟩
  FileSettings := ⟨"local", "uploads", false, 128, 128⟩
  LdapSettings := ⟨some false⟩
  GitLabSettings := ⟨false, "", ""⟩
  GoogleSettings := ⟨false, "", ""⟩
  OAuthSettings := none
  OAuthConfigDir := ""
  Internal := [("SqlSettings.DataSource", "mmuser:mostest@tcp(dockerhost:3306)/mattermost")]

/-- Example build metadata. -/
def exampleBuild : BuildInfo := ⟨"1.4.0", "dev", "Fri Jan 1 2016", "0000", "false"⟩

/-- An enabled provider file `github.json`. -/
def githubFile : ProviderFile := ⟨"github", some ⟨"GitHub"⟩, ⟨true, "gh-id", "gh-secret"⟩⟩

/-- An enabled provider file `gitlab.json`. -/
def gitlabFile : ProviderFile := ⟨"gitlab", some ⟨"GitLab"⟩, ⟨true, "gl-id", "gl-secret"⟩⟩

/-- A disabled provider file `okta.json`. -/
def oktaFile : ProviderFile := ⟨"okta", some ⟨"Okta"⟩, ⟨false, "ok-id", "ok-secret"⟩⟩

/-- An environment: `config.json` exists in `./config/` and decodes to
`exampleConfig`; the working directory holds `github.json`, `gitlab.json` and
`okta.json`; the directory `providers` holds no JSON file; `range` visits keys
in the order stored. -/
def exampleEnv : Env where
  statOk := fun p => p = "./config/config.json"
  abs := fun p =>
    if p = "./config/config.json" then "/opt/platform/config/config.json" else p
  osOpen := fun p =>
    if p = "/opt/platform/config/config.json" then .ok ⟨.ok exampleConfig, .ok 1451606400⟩
    else .error "no such file or directory"
  SetDefaults := fun c => c
  IsValid := fun _ => none
  globJson := fun dir =>
    if dir = "" then .ok ["github.json", "gitlab.json", "okta.json"] else .ok []
  LoadOAuthProviderFromSettings := fun p =>
    if p = "github.json" then .ok githubFile
    else if p = "gitlab.json" then .ok gitlabFile
    else if p = "okta.json" then .ok oktaFile
    else .error "unexpected end of JSON input"
  rangeOrder := fun ks => ks
  build := exampleBuild

/-- The example environment with a validator that rejects every configuration. -/
def rejectingEnv : Env :=
  { exampleEnv with IsValid := fun _ => some "Invalid maximum users per team for team settings" }

/-- The process state before the first load (lines 30-34), the registry empty. -/
def initialWorld : World where
  Cfg := { exampleConfig with
    TeamSettings := ⟨"", false, false, none, none⟩
    SupportSettings := ⟨none, none, none, none, none, none⟩ }
  ClientCfg := []
  CfgLastModified := 0
  CfgFileName := ""
  oauthProviders := []

/-- The allow-listed source fields: the fields of `model.Config` that
`getClientConfig` copies into the projection.  The two keys computed from
`OAuthSettings` (lines 255-270) are not among them. -/
structure ClientView where
  SiteName : String
  EnableTeamCreation : Bool
  EnableUserCreation : Bool
  RestrictTeamNames : Option Bool
  EnableTeamListing : Option Bool
  EnableOAuthServiceProvider : Bool
  SegmentDeveloperKey : String
  GoogleDeveloperKey : String
  EnableIncomingWebhooks : Bool
  EnableOutgoingWebhooks : Bool
  EnablePostUsernameOverride : Bool
  EnablePostIconOverride : Bool
  EnableDeveloper : Option Bool
  SendEmailNotifications : Bool
  EnableSignUpWithEmail : Bool
  RequireEmailVerification : Bool
  FeedbackEmail : String
  EnableSignUpWithGitLab : Bool
  EnableSignUpWithGoogle : Bool
  ShowEmailAddress : Bool
  TermsOfServiceLink : Option String
  PrivacyPolicyLink : Option String
  AboutLink : Option String
  HelpLink : Option String
  ReportAProblemLink : Option String
  SupportEmail : Option String
  EnablePublicLink : Bool
  ProfileHeight : Int
  ProfileWidth : Int
  EnableLdap : Option Bool
deriving DecidableEq, Repr

/-- The allow-listed source fields of a configuration. -/
def allowListed (c : Config) : ClientView where
  SiteName := c.TeamSettings.SiteName
  EnableTeamCreation := c.TeamSettings.EnableTeamCreation
  EnableUserCreation := c.TeamSettings.EnableUserCreation
  RestrictTeamNames := c.TeamSettings.RestrictTeamNames
  EnableTeamListing := c.TeamSettings.EnableTeamListing
  EnableOAuthServiceProvider := c.ServiceSettings.EnableOAuthServiceProvider
  SegmentDeveloperKey := c.ServiceSettings.SegmentDeveloperKey
  GoogleDeveloperKey := c.ServiceSettings.GoogleDeveloperKey
  EnableIncomingWebhooks := c.ServiceSettings.EnableIncomingWebhooks
  EnableOutgoingWebhooks := c.ServiceSettings.EnableOutgoingWebhooks
  EnablePostUsernameOverride := c.ServiceSettings.EnablePostUsernameOverride
  EnablePostIconOverride := c.ServiceSettings.EnablePostIconOverride
  EnableDeveloper := c.ServiceSettings.EnableDeveloper
  SendEmailNotifications := c.EmailSettings.SendEmailNotifications
  EnableSignUpWithEmail := c.EmailSettings.EnableSignUpWithEmail
  RequireEmailVerification := c.EmailSettings.RequireEmailVerification
  FeedbackEmail := c.EmailSettings.FeedbackEmail
  EnableSignUpWithGitLab := c.GitLabSettings.Enable
  EnableSignUpWithGoogle := c.GoogleSettings.Enable
  ShowEmailAddress := c.PrivacySettings.ShowEmailAddress
  TermsOfServiceLink := c.SupportSettings.TermsOfServiceLink
  PrivacyPolicyLink := c.SupportSettings.PrivacyPolicyLink
  AboutLink := c.SupportSettings.AboutLink
  HelpLink := c.SupportSettings.HelpLink
  ReportAProblemLink := c.SupportSettings.ReportAProblemLink
  SupportEmail := c.SupportSettings.SupportEmail
  EnablePublicLink := c.FileSettings.EnablePublicLink
  ProfileHeight := c.FileSettings.ProfileHeight
  ProfileWidth := c.FileSettings.ProfileWidth
  EnableLdap := c.LdapSettings.Enable

/-- The conditions under which `LoadConfig` is specified to fail: opening the
resolved file fails, or decoding it fails, or reading its modification time
fails, or `IsValid` reports an error on the decoded configuration after
`SetDefaults`. -/
def loadFails (env : Env) (path : String) : Prop :=
  (∃ err, env.osOpen path = .error err) ∨
  ∃ file, env.osOpen path = .ok file ∧
    ((∃ err, file.decoded = .error err) ∨ (∃ err, file.modTime = .error err) ∨
      ∃ config message, file.decoded = .ok config ∧
        env.IsValid (env.SetDefaults config) = some message)

/-- The configuration with a settings map holding `gitlab` only. -/
def gitlabConfig : Config :=
  { exampleConfig with OAuthSettings := some [("gitlab", ⟨true, "gl-id", "gl-secret"⟩)] }

/-- The example configuration with an empty, non-nil settings map. -/
def emptySettingsConfig : Config :=
  { exampleConfig with OAuthSettings := some [] }

/-- A registry in which `gitlab` is bound to a provider of another type. -/
def foreignRegistry : Registry := [("gitlab", .foreign "*gitlab.GitLabProvider")]

/-- The configuration after `github.json` then `gitlab.json` were loaded. -/
def twoProviderConfig : Config :=
  { exampleConfig with
    OAuthSettings := some [("github", ⟨true, "gh-id", "gh-secret"⟩),
      ("gitlab", ⟨true, "gl-id", "gl-secret"⟩)] }

/-- The registry after `github.json` then `gitlab.json` were loaded. -/
def twoProviderRegistry : Registry :=
  [("github", .custom (some ⟨"GitHub"⟩)), ("gitlab", .custom (some ⟨"GitLab"⟩))]

/-- The example configuration with other credentials and internal settings. -/
def otherSecretsConfig : Config :=
  { twoProviderConfig with
    EmailSettings := { twoProviderConfig.EmailSettings with SMTPPassword := "another" }
    FileSettings := { twoProviderConfig.FileSettings with Directory := "/data/" }
    OAuthSettings := some [("gitlab", ⟨false, "x", "y"⟩),
      ("github", ⟨true, "gh-id", "changed-secret"⟩)]
    OAuthConfigDir := "providers"
    Internal := [] }

/-! ## Lemmas on maps -/

theorem mapLookup_mapStore {V : Type} (m : GoMap V) (k k2 : String) (v : V) :
    mapLookup (mapStore m k v) k2 = if k = k2 then some v else mapLookup m k2 := by
  induction m with
  | nil => simp [mapStore, mapLookup]
  | cons e rest ih =>
    obtain ⟨k0, v0⟩ := e
    by_cases h0 : k0 = k
    · subst h0
      by_cases h2 : k0 = k2 <;> simp [mapStore, mapLookup, h2]
    · by_cases h2 : k0 = k2
      · subst h2
        have hne : ¬ k = k0 := fun h => h0 h.symm
        simp [mapStore, mapLookup, h0, hne]
      · simp [mapStore, mapLookup, h0, h2, ih]

/-! ## Path resolver -/

/-- C6: `FindConfigFile` returns the absolute path of the first candidate that
exists among `/tmp/<name>`, `./config/<name>`, `../config/<name>`, `<name>`,
in that order, and the name unchanged when none of the four exists. -/
theorem FindConfigFile_precedence (env : Env) (name : String) :
    FindConfigFile env name = resolveFileSpec env name := by
  unfold FindConfigFile resolveFileSpec fileCandidates
  by_cases h1 : env.statOk ("/tmp/" ++ name) = true
  · simp [List.find?, h1]
  · by_cases h2 : env.statOk ("./config/" ++ name) = true
    · simp [List.find?, h1, h2]
    · by_cases h3 : env.statOk ("../config/" ++ name) = true
      · simp [List.find?, h1, h2, h3]
      · by_cases h4 : env.statOk name = true
        · simp [List.find?, h1, h2, h3, h4]
        · simp [List.find?, h1, h2, h3, h4]

/-- C7: `FindDir` returns the absolute path of the first candidate that exists
among `./<name>/`, `../<name>/`, `/tmp/<name>`, in that order, followed by a
separator, and `./` when none of the three exists; the result always ends
with the separator. -/
theorem FindDir_precedence (env : Env) (dir : String) :
    FindDir env dir = resolveDirSpec env dir ∧
      (FindDir env dir).data.getLast? = some '/' := by
  constructor
  · unfold FindDir resolveDirSpec dirCandidates
    by_cases h1 : env.statOk ("./" ++ dir ++ "/") = true
    · simp [List.find?, h1]
    · by_cases h2 : env.statOk ("../" ++ dir ++ "/") = true
      · simp [List.find?, h1, h2]
      · by_cases h3 : env.statOk ("/tmp/" ++ dir) = true
        · simp [List.find?, h1, h2, h3]
        · simp [List.find?, h1, h2, h3]
  · unfold FindDir
    simp [String.data_append]

/-! ## Directory normalisation -/

theorem needsSeparator_append_slash (dir : String) : needsSeparator (dir ++ "/") = false := by
  simp [needsSeparator, String.data_append]

/-- C9: the normalisation of the local storage directory is idempotent for
every configuration; under the local driver a non-empty directory that does not
end in `/` gets one `/` appended (`uploads` becomes `uploads/`) and a directory
that ends in `/` is left as it is (`uploads/` stays `uploads/`). -/
theorem normalizeDirectory_idempotent (c : Config) :
    normalizeDirectory (normalizeDirectory c) = normalizeDirectory c ∧
    (∀ ch, c.FileSettings.DriverName = IMAGE_DRIVER_LOCAL →
      c.FileSettings.Directory.data.getLast? = some ch → ch ≠ '/' →
      (normalizeDirectory c).FileSettings.Directory = c.FileSettings.Directory ++ "/") ∧
    (c.FileSettings.Directory.data.getLast? = some '/' → normalizeDirectory c = c) ∧
    (c.FileSettings.Directory = "" → normalizeDirectory c = c) ∧
    (normalizeDirectory { c with FileSettings :=
        { c.FileSettings with DriverName := IMAGE_DRIVER_LOCAL, Directory := "uploads" } }
      ).FileSettings.Directory = "uploads/" ∧
    (normalizeDirectory { c with FileSettings :=
        { c.FileSettings with DriverName := IMAGE_DRIVER_LOCAL, Directory := "uploads/" } }
      ).FileSettings.Directory = "uploads/" := by
  refine ⟨?_, ?_, ?_, ?_, ?_, ?_⟩
  · unfold normalizeDirectory
    by_cases hd : c.FileSettings.DriverName = IMAGE_DRIVER_LOCAL
    · by_cases hn : needsSeparator c.FileSettings.Directory = true
      · simp [hd, hn, needsSeparator_append_slash]
      · simp [hd, hn]
    · simp [hd]
  · intro ch hd hl hne
    simp [normalizeDirectory, needsSeparator, hd, hl, hne]
  · intro hl
    simp [normalizeDirectory, needsSeparator, hl]
  · intro he
    simp [normalizeDirectory, needsSeparator, he]
  · simp [normalizeDirectory, needsSeparator, IMAGE_DRIVER_LOCAL]
  · simp [normalizeDirectory, needsSeparator, IMAGE_DRIVER_LOCAL]

/-- Witness of C9: the example configuration uses the local driver and the
directory `uploads`. -/
theorem normalizeDirectory_idempotent_witness :
    (normalizeDirectory exampleConfig).FileSettings.Directory = "uploads" ++ "/" :=
  (normalizeDirectory_idempotent exampleConfig).2.1 's' rfl rfl (by decide)

/-! ## Extension loader -/

theorem lastEnabled_cons (f : ProviderFile) (fs : List ProviderFile) (name : String) :
    lastEnabled (f :: fs) name =
      match lastEnabled fs name with
      | some g => some g
      | none => if f.settings.Enable = true ∧ f.providerName = name then some f else none := by
  unfold lastEnabled
  by_cases hp : (f.settings.Enable && decide (f.providerName = name)) = true
  · simp only [List.filter_cons]
    rw [if_pos hp, List.getLast?_cons]
    have hp2 : f.settings.Enable = true ∧ f.providerName = name := by simpa using hp
    cases h : (List.filter (fun f => f.settings.Enable && decide (f.providerName = name)) fs).getLast? with
    | none => simp [hp2]
    | some g => simp
  · simp only [List.filter_cons]
    rw [if_neg hp]
    have hp2 : ¬ (f.settings.Enable = true ∧ f.providerName = name) := by simpa using hp
    cases h : (List.filter (fun f => f.settings.Enable && decide (f.providerName = name)) fs).getLast? with
    | none => simp [hp2]
    | some g => simp

theorem lookupSettings_store (settings : Option (GoMap SSOSettings)) (k name : String)
    (v : SSOSettings) :
    lookupSettings (some (mapStore (makeIfNil settings) k v)) name =
      if k = name then some v else lookupSettings settings name := by
  cases settings with
  | none => simp [lookupSettings, makeIfNil, mapLookup_mapStore, mapLookup]
  | some m => simp [lookupSettings, makeIfNil, mapLookup_mapStore]

theorem loadProviderFiles_spec (env : Env) {files : List String} {fs : List ProviderFile}
    (hdec : List.Forall₂ (fun path f => env.LoadOAuthProviderFromSettings path = .ok f) files fs)
    (hprov : ∀ f ∈ fs, f.settings.Enable = true → f.provider ≠ none) :
    ∀ (settings : Option (GoMap SSOSettings)) (reg : Registry),
      (loadProviderFiles env files settings reg).err = none ∧
      ∀ name,
        (∀ f, lastEnabled fs name = some f →
          mapLookup (loadProviderFiles env files settings reg).registry name
              = some (.custom f.provider) ∧
          lookupSettings (loadProviderFiles env files settings reg).settings name
              = some f.settings) ∧
        (lastEnabled fs name = none →
          mapLookup (loadProviderFiles env files settings reg).registry name
              = mapLookup reg name ∧
          lookupSettings (loadProviderFiles env files settings reg).settings name
              = lookupSettings settings name) := by
  induction hdec with
  | nil =>
    intro settings reg
    simp [loadProviderFiles, lastEnabled]
  | @cons path f files fs hpf _ ih =>
    intro settings reg
    have hprov2 : ∀ g ∈ fs, g.settings.Enable = true → g.provider ≠ none :=
      fun g hg => hprov g (List.mem_cons_of_mem _ hg)
    have ih2 := ih hprov2
    by_cases he : f.settings.Enable = true
    · have hp : f.provider ≠ none := hprov f (List.mem_cons_self _ _) he
      obtain ⟨p, hp⟩ := Option.ne_none_iff_exists'.mp hp
      have hstep : loadProviderFiles env (path :: files) settings reg =
          loadProviderFiles env files
            (some (mapStore (makeIfNil settings)
              f.providerName f.settings))
            (RegisterOauthProvider reg f.providerName (.custom (some p))) := by
        simp [loadProviderFiles, hpf, he, hp]
      rw [hstep]
      obtain ⟨herr, hnames⟩ := ih2
        (some (mapStore (makeIfNil settings)
          f.providerName f.settings))
        (RegisterOauthProvider reg f.providerName (.custom (some p)))
      refine ⟨herr, fun name => ?_⟩
      obtain ⟨hsome, hnone⟩ := hnames name
      rw [lastEnabled_cons]
      cases hl : lastEnabled fs name with
      | some g =>
        refine ⟨fun g2 hg2 => ?_, fun h => by simp at h⟩
        have : g = g2 := by simpa using hg2
        subst this
        exact hsome g hl
      | none =>
        obtain ⟨hr, hs⟩ := hnone hl
        rw [hr, hs, lookupSettings_store]
        by_cases hn : f.providerName = name
        · simp [he, hn, RegisterOauthProvider, mapLookup_mapStore, hp]
        · simp [hn, RegisterOauthProvider, mapLookup_mapStore]
    · have he2 : f.settings.Enable = false := by simpa using he
      have hstep : loadProviderFiles env (path :: files) settings reg =
          loadProviderFiles env files settings reg := by
        simp [loadProviderFiles, hpf, he2]
      rw [hstep]
      obtain ⟨herr, hnames⟩ := ih2 settings reg
      refine ⟨herr, fun name => ?_⟩
      obtain ⟨hsome, hnone⟩ := hnames name
      rw [lastEnabled_cons]
      cases hl : lastEnabled fs name with
      | some g =>
        refine ⟨fun g2 hg2 => ?_, fun h => by simp at h⟩
        have : g = g2 := by simpa using hg2
        subst this
        exact hsome g hl
      | none =>
        simpa [he2] using hnone hl

theorem loadProviderFiles_all_disabled (env : Env) {files : List String} {fs : List ProviderFile}
    (hdec : List.Forall₂ (fun path f => env.LoadOAuthProviderFromSettings path = .ok f) files fs)
    (hdis : ∀ f ∈ fs, f.settings.Enable = false)
    (settings : Option (GoMap SSOSettings)) (reg : Registry) :
    loadProviderFiles env files settings reg = ⟨none, settings, reg⟩ := by
  induction hdec with
  | nil => simp [loadProviderFiles]
  | @cons path f files fs hpf _ ih =>
    have he : f.settings.Enable = false := hdis f (List.mem_cons_self _ _)
    simp only [loadProviderFiles, hpf, he, if_true]
    exact ih (fun g hg => hdis g (List.mem_cons_of_mem _ hg))

/-- C8: when the glob succeeds and every globbed file decodes (with a non-nil
provider for every enabled one), `loadOAuthProviders` returns no error; a name
carried by an enabled file is bound, in the registry and in `cfg.OAuthSettings`,
to the provider and settings of the last such file in glob order; every other
name keeps the binding it had, so disabled providers are neither registered nor
merged; and when no file is enabled (in particular with zero files) the
configuration and the registry are returned as they were, a nil map staying nil. -/
theorem loadOAuthProviders_registers_enabled (env : Env) (cfg : Config) (reg : Registry)
    (files : List String) (fs : List ProviderFile)
    (hglob : env.globJson cfg.OAuthConfigDir = .ok files)
    (hdec : List.Forall₂ (fun path f => env.LoadOAuthProviderFromSettings path = .ok f) files fs)
    (hprov : ∀ f ∈ fs, f.settings.Enable = true → f.provider ≠ none) :
    (loadOAuthProviders env cfg reg).1 = none ∧
    (∀ name f, lastEnabled fs name = some f →
      GetOauthProvider (loadOAuthProviders env cfg reg).2.2 name = some (.custom f.provider) ∧
      settingsOf (loadOAuthProviders env cfg reg).2.1 name = some f.settings) ∧
    (∀ name, lastEnabled fs name = none →
      GetOauthProvider (loadOAuthProviders env cfg reg).2.2 name = GetOauthProvider reg name ∧
      settingsOf (loadOAuthProviders env cfg reg).2.1 name = settingsOf cfg name) ∧
    ((∀ f ∈ fs, f.settings.Enable = false) → loadOAuthProviders env cfg reg = (none, cfg, reg)) ∧
    (files = [] → loadOAuthProviders env cfg reg = (none, cfg, reg)) := by
  have hspec := loadProviderFiles_spec env hdec hprov cfg.OAuthSettings reg
  have hrun : loadOAuthProviders env cfg reg =
      ((loadProviderFiles env files cfg.OAuthSettings reg).err,
        { cfg with OAuthSettings := (loadProviderFiles env files cfg.OAuthSettings reg).settings },
        (loadProviderFiles env files cfg.OAuthSettings reg).registry) := by
    simp [loadOAuthProviders, hglob]
  refine ⟨?_, ?_, ?_, ?_, ?_⟩
  · rw [hrun]
    exact hspec.1
  · intro name f hl
    rw [hrun]
    exact (hspec.2 name).1 f hl
  · intro name hl
    rw [hrun]
    exact (hspec.2 name).2 hl
  · intro hdis
    rw [hrun, loadProviderFiles_all_disabled env hdec hdis]
  · intro hnil
    subst hnil
    rw [hrun]
    simp [loadProviderFiles]

/-- Witness of C8: the working directory of the example holds two enabled
provider files and a disabled one; the enabled two are bound, the disabled one
is not. -/
theorem loadOAuthProviders_registers_enabled_witness :
    (loadOAuthProviders exampleEnv exampleConfig []).1 = none ∧
    GetOauthProvider (loadOAuthProviders exampleEnv exampleConfig []).2.2 "github"
      = some (.custom githubFile.provider) ∧
    settingsOf (loadOAuthProviders exampleEnv exampleConfig []).2.1 "gitlab"
      = some gitlabFile.settings ∧
    GetOauthProvider (loadOAuthProviders exampleEnv exampleConfig []).2.2 "okta" = none ∧
    settingsOf (loadOAuthProviders exampleEnv exampleConfig []).2.1 "okta" = none := by
  have h := loadOAuthProviders_registers_enabled exampleEnv exampleConfig []
    ["github.json", "gitlab.json", "okta.json"] [githubFile, gitlabFile, oktaFile] rfl
    (List.Forall₂.cons rfl (List.Forall₂.cons rfl (List.Forall₂.cons rfl List.Forall₂.nil)))
    (by decide)
  exact ⟨h.1, (h.2.1 "github" githubFile (by decide)).1,
    (h.2.1 "gitlab" gitlabFile (by decide)).2,
    (h.2.2.1 "okta" (by decide)).1, (h.2.2.1 "okta" (by decide)).2⟩

/-- C10, evaluated on the code: with `OAuthConfigDir` empty the glob of line 147
is still performed, on the pattern `*.json` of the working directory; the two
enabled provider files found there are registered and merged into the
configuration, and a file there that does not decode makes the call return an
error. -/
theorem loadOAuthProviders_empty_dir_still_globs :
    exampleConfig.OAuthConfigDir = "" ∧
    exampleConfig.OAuthSettings = none ∧
    loadOAuthProviders exampleEnv exampleConfig [] =
      (none, twoProviderConfig, twoProviderRegistry) ∧
    (loadOAuthProviders exampleEnv exampleConfig []).2.1.OAuthSettings
      ≠ exampleConfig.OAuthSettings ∧
    (loadOAuthProviders exampleEnv exampleConfig []).2.2 ≠ [] ∧
    (loadOAuthProviders
      { exampleEnv with
        LoadOAuthProviderFromSettings := fun _ => .error "unexpected end of JSON input" }
      exampleConfig []).1 =
      some "Error loading oauth provider settings from github.json: unexpected end of JSON input" := by
  refine ⟨rfl, rfl, by decide, by decide, by decide, by decide⟩

/-! ## Client projection -/

theorem except_bind_ok {α β : Type} (e : Except String α) (f : α → Except String β) (x : β) :
    (e >>= f) = Except.ok x ↔ ∃ a, e = .ok a ∧ f a = .ok x := by
  cases e with
  | error m => simp [bind, Except.bind]
  | ok a => simp [bind, Except.bind]

theorem except_pure_ok {α : Type} (a x : α) :
    (pure a : Except String α) = Except.ok x ↔ a = x := by
  simp [pure, Except.pure]

theorem deref_ok {α : Type} (p : Option α) (a : α) : deref p = .ok a ↔ p = some a := by
  cases p <;> simp [deref]

theorem mem_mapKeys_mapStore {V : Type} (m : GoMap V) (k0 k : String) (v : V) :
    k ∈ mapKeys (mapStore m k0 v) ↔ k ∈ mapKeys m ∨ k = k0 := by
  induction m with
  | nil => simp [mapStore, mapKeys]
  | cons e rest ih =>
    obtain ⟨k1, v1⟩ := e
    by_cases h : k1 = k0
    · subst h
      simp [mapStore, mapKeys]
      tauto
    · have ih2 : k ∈ List.map Prod.fst (mapStore rest k0 v) ↔
          k ∈ List.map Prod.fst rest ∨ k = k0 := ih
      simp only [mapStore, h, if_false, mapKeys, List.map_cons, List.mem_cons, ih2]
      tauto

theorem mem_mapKeys_nil {V : Type} (k : String) : k ∈ mapKeys ([] : GoMap V) ↔ False := by
  simp [mapKeys]

theorem mapLookup_nil {V : Type} (k : String) : mapLookup ([] : GoMap V) k = none := rfl

theorem collectDisplayNames_ok (reg : Registry) (visit acc names : List String)
    (h : collectDisplayNames reg visit acc = .ok names) :
    names = acc ++ visit.filterMap (displayNameOf reg) := by
  induction visit generalizing acc with
  | nil => simpa [collectDisplayNames] using h.symm
  | cons name rest ih =>
    unfold collectDisplayNames at h
    cases hg : GetOauthProvider reg name with
    | none =>
      rw [hg] at h
      simpa [displayNameOf, hg] using ih acc h
    | some hd =>
      rw [hg] at h
      cases hd with
      | foreign t => simp at h
      | custom p =>
        cases p with
        | none => simp at h
        | some p =>
          have := ih _ h
          simpa [displayNameOf, hg] using this

theorem collectDisplayNames_returns (reg : Registry) (visit acc : List String)
    (h : ∀ name ∈ visit, castable reg name) :
    collectDisplayNames reg visit acc = .ok (acc ++ visit.filterMap (displayNameOf reg)) := by
  induction visit generalizing acc with
  | nil => simp [collectDisplayNames]
  | cons name rest ih =>
    have hrest : ∀ n ∈ rest, castable reg n := fun n hn => h n (List.mem_cons_of_mem _ hn)
    unfold collectDisplayNames
    rcases h name (List.mem_cons_self _ _) with hg | ⟨p, hg⟩
    · rw [hg]
      simpa [displayNameOf, hg] using ih acc hrest
    · rw [hg]
      simpa [displayNameOf, hg] using ih (acc ++ [p.DisplayName]) hrest

theorem getClientConfig_ok_inv (b : BuildInfo) (reg : Registry) (visit : List String)
    (c : Config) (props : ClientConfig) (h : getClientConfig b reg visit c = .ok props) :
    pointersSet c ∧
    (c.OAuthSettings = none →
      (∀ k, k ∈ mapKeys props ↔ k ∈ alwaysKeys) ∧
      mapLookup props "EnableSignUpWithOAuth" = some (.str "false") ∧
      mapLookup props "OAuthProviderDisplayNames" = none) ∧
    (c.OAuthSettings ≠ none →
      (∀ k, k ∈ mapKeys props ↔ k ∈ clientKeys) ∧
      mapLookup props "EnableSignUpWithOAuth" = some (.str "true") ∧
      mapLookup props "OAuthProviderDisplayNames"
        = some (.strs (visit.filterMap (displayNameOf reg)))) := by
  cases hO : c.OAuthSettings with
  | none =>
    simp only [getClientConfig, hO, except_bind_ok, deref_ok, except_pure_ok] at h
    obtain ⟨r, hr, l, hl, d, hd, y, hy, t, ht, p, hp, a, ha, hv, hh, rp, hrp, s, hs, e, he, hprops⟩ := h
    subst hy hprops
    refine ⟨?_, ?_, ?_⟩
    · simp [pointersSet, hr, hl, hd, ht, hp, ha, hh, hrp, hs, he]
    · intro _
      refine ⟨fun k => ?_, ?_⟩
      · simp only [mem_mapKeys_mapStore, mem_mapKeys_nil, false_or, or_assoc, alwaysKeys,
          List.mem_cons, List.mem_singleton, or_false, List.not_mem_nil]
      · simp [mapLookup_mapStore, mapLookup_nil, FormatBool]
    · intro hne
      exact absurd rfl hne
  | some m =>
    simp only [getClientConfig, hO, except_bind_ok, deref_ok, except_pure_ok] at h
    obtain ⟨r, hr, l, hl, d, hd, names, hnames, y, hy, t, ht, p, hp, a, ha, hv, hh, rp, hrp,
      s, hs, e, he, hprops⟩ := h
    subst hy hprops
    have hn := collectDisplayNames_ok reg visit [] names hnames
    simp only [List.nil_append] at hn
    subst hn
    refine ⟨?_, ?_, ?_⟩
    · simp [pointersSet, hr, hl, hd, ht, hp, ha, hh, hrp, hs, he]
    · intro hne
      simp at hne
    · intro _
      refine ⟨fun k => ?_, ?_⟩
      · simp only [mem_mapKeys_mapStore, mem_mapKeys_nil, false_or, or_assoc, clientKeys,
          List.mem_cons, List.mem_singleton, or_false, List.not_mem_nil]
      · simp [mapLookup_mapStore, mapLookup_nil, FormatBool]

theorem getClientConfig_returns (b : BuildInfo) (reg : Registry) (visit : List String)
    (c : Config) (hp : pointersSet c)
    (hreg : c.OAuthSettings ≠ none → ∀ name ∈ visit, castable reg name) :
    ∃ props, getClientConfig b reg visit c = .ok props := by
  obtain ⟨hr, hl, hd, ht, hp, ha, hh, hrp, hs, he⟩ := hp
  obtain ⟨r, hr⟩ := Option.ne_none_iff_exists'.mp hr
  obtain ⟨l, hl⟩ := Option.ne_none_iff_exists'.mp hl
  obtain ⟨d, hd⟩ := Option.ne_none_iff_exists'.mp hd
  obtain ⟨t, ht⟩ := Option.ne_none_iff_exists'.mp ht
  obtain ⟨p, hp⟩ := Option.ne_none_iff_exists'.mp hp
  obtain ⟨a, ha⟩ := Option.ne_none_iff_exists'.mp ha
  obtain ⟨hv, hh⟩ := Option.ne_none_iff_exists'.mp hh
  obtain ⟨rp, hrp⟩ := Option.ne_none_iff_exists'.mp hrp
  obtain ⟨s, hs⟩ := Option.ne_none_iff_exists'.mp hs
  obtain ⟨e, he⟩ := Option.ne_none_iff_exists'.mp he
  cases hO : c.OAuthSettings with
  | none =>
    simp only [getClientConfig, hO, except_bind_ok, deref_ok, except_pure_ok]
    exact ⟨_, r, hr, l, hl, d, hd, _, rfl, t, ht, p, hp, a, ha, hv, hh, rp, hrp, s, hs, e, he, rfl⟩
  | some m =>
    have hcol := collectDisplayNames_returns reg visit [] (hreg (by simp [hO]))
    simp only [getClientConfig, hO, except_bind_ok, deref_ok, except_pure_ok]
    exact ⟨_, r, hr, l, hl, d, hd, _, hcol, _, rfl, t, ht, p, hp, a, ha, hv, hh, rp, hrp,
      s, hs, e, he, rfl⟩

theorem alwaysKeys_subset_clientKeys (k : String) (h : k ∈ alwaysKeys) : k ∈ clientKeys := by
  simp only [alwaysKeys, List.mem_cons, List.mem_singleton, List.not_mem_nil, or_false] at h
  rcases h with rfl | rfl | rfl | rfl | rfl | rfl | rfl | rfl | rfl | rfl | rfl | rfl | rfl | rfl | rfl | rfl | rfl | rfl | rfl | rfl | rfl | rfl | rfl | rfl | rfl | rfl | rfl | rfl | rfl | rfl | rfl | rfl | rfl | rfl | rfl | rfl <;> simp [clientKeys]

theorem displayNames_not_always : "OAuthProviderDisplayNames" ∉ alwaysKeys := by
  simp [alwaysKeys]

theorem displayNames_mem_clientKeys : "OAuthProviderDisplayNames" ∈ clientKeys := by
  simp [clientKeys]

theorem getClientConfig_congr (b : BuildInfo) (reg : Registry) (visit : List String)
    (c1 c2 : Config) (h : allowListed c1 = allowListed c2)
    (hn : c1.OAuthSettings = none ↔ c2.OAuthSettings = none) :
    getClientConfig b reg visit c1 = getClientConfig b reg visit c2 := by
  simp only [allowListed, ClientView.mk.injEq] at h
  obtain ⟨h0, h1, h2, h3, h4, h5, h6, h7, h8, h9, h10, h11, h12, h13, h14, h15, h16, h17, h18, h19, h20, h21, h22, h23, h24, h25, h26, h27, h28, h29⟩ := h
  cases hO1 : c1.OAuthSettings with
  | none =>
    cases hO2 : c2.OAuthSettings with
    | none => simp only [getClientConfig, hO1, hO2, h0, h1, h2, h3, h4, h5, h6, h7, h8, h9, h10, h11, h12, h13, h14, h15, h16, h17, h18, h19, h20, h21, h22, h23, h24, h25, h26, h27, h28, h29]
    | some m2 => simp [hO1, hO2] at hn
  | some m1 =>
    cases hO2 : c2.OAuthSettings with
    | none => simp [hO1, hO2] at hn
    | some m2 => simp only [getClientConfig, hO1, hO2, h0, h1, h2, h3, h4, h5, h6, h7, h8, h9, h10, h11, h12, h13, h14, h15, h16, h17, h18, h19, h20, h21, h22, h23, h24, h25, h26, h27, h28, h29]

theorem collectDisplayNames_castable (reg : Registry) (visit acc names : List String)
    (h : collectDisplayNames reg visit acc = .ok names) :
    ∀ name ∈ visit, castable reg name := by
  induction visit generalizing acc with
  | nil => simp
  | cons name rest ih =>
    unfold collectDisplayNames at h
    cases hg : GetOauthProvider reg name with
    | none =>
      rw [hg] at h
      intro n hn
      rcases List.mem_cons.mp hn with rfl | hn
      · exact Or.inl hg
      · exact ih acc h n hn
    | some hd =>
      rw [hg] at h
      cases hd with
      | foreign t => simp at h
      | custom p =>
        cases p with
        | none => simp at h
        | some p =>
          intro n hn
          rcases List.mem_cons.mp hn with rfl | hn
          · exact Or.inr ⟨p, hg⟩
          · exact ih _ h n hn

theorem getClientConfig_ok_castable (b : BuildInfo) (reg : Registry) (visit : List String)
    (c : Config) (props : ClientConfig) (h : getClientConfig b reg visit c = .ok props)
    (hO : c.OAuthSettings ≠ none) : ∀ name ∈ visit, castable reg name := by
  cases hO2 : c.OAuthSettings with
  | none => exact absurd hO2 hO
  | some m =>
    simp only [getClientConfig, hO2, except_bind_ok, deref_ok, except_pure_ok] at h
    obtain ⟨r, hr, l, hl, d, hd, names, hnames, _⟩ := h
    exact collectDisplayNames_castable reg visit [] names hnames

/-- C2, as the code has it: every projection `getClientConfig` returns has its
keys among the 37 keys written in the function, the 36 unconditional ones always
present and `OAuthProviderDisplayNames` present exactly when `OAuthSettings` is
non-nil; and two configurations that agree on the allow-listed source fields, on
whether `OAuthSettings` is nil and on the set of provider names give, under the
same registry and build metadata and for each order in which `range` visits the
settings map, the same result, whatever their other fields hold. -/
theorem getClientConfig_allow_list (b : BuildInfo) (reg : Registry) (c1 c2 : Config) :
    (clientKeys.length = 37 ∧ alwaysKeys.length = 36) ∧
    (∀ visit props, getClientConfig b reg visit c1 = .ok props →
      (∀ k ∈ mapKeys props, k ∈ clientKeys) ∧ (∀ k ∈ alwaysKeys, k ∈ mapKeys props) ∧
      ("OAuthProviderDisplayNames" ∈ mapKeys props ↔ c1.OAuthSettings ≠ none)) ∧
    (pointersSet c1 → (∀ name ∈ providerNames c1, castable reg name) →
      ∀ visit, visit.Perm (providerNames c1) →
        ∃ props, getClientConfig b reg visit c1 = .ok props) ∧
    (allowListed c1 = allowListed c2 →
      (c1.OAuthSettings = none ↔ c2.OAuthSettings = none) →
      (providerNames c1).Perm (providerNames c2) →
      ∀ visit, visit.Perm (providerNames c1) →
        visit.Perm (providerNames c2) ∧
        getClientConfig b reg visit c1 = getClientConfig b reg visit c2) := by
  refine ⟨⟨rfl, rfl⟩, ?_, ?_, ?_⟩
  · intro visit props h
    obtain ⟨_, hnil, hsome⟩ := getClientConfig_ok_inv b reg visit c1 props h
    by_cases hO : c1.OAuthSettings = none
    · obtain ⟨hk, _, _⟩ := hnil hO
      refine ⟨fun k hkm => alwaysKeys_subset_clientKeys k ((hk k).mp hkm),
        fun k hka => (hk k).mpr hka, ?_⟩
      constructor
      · intro hm
        exact absurd ((hk _).mp hm) displayNames_not_always
      · intro hne
        exact absurd hO hne
    · obtain ⟨hk, _, _⟩ := hsome hO
      refine ⟨fun k hkm => (hk k).mp hkm,
        fun k hka => (hk k).mpr (alwaysKeys_subset_clientKeys k hka), ?_⟩
      constructor
      · intro _
        exact hO
      · intro _
        exact (hk _).mpr displayNames_mem_clientKeys
  · intro hp hreg visit hvis
    exact getClientConfig_returns b reg visit c1 hp
      (fun _ name hn => hreg name (hvis.subset hn))
  · intro hv hn hperm visit hvis
    exact ⟨hvis.trans hperm, getClientConfig_congr b reg visit c1 c2 hv hn⟩

/-- Witness of C2 as the code has it: two configurations that differ in
credentials, storage directory, provider directory, internal settings and
provider settings, and hold the same provider names, have the same projection. -/
theorem getClientConfig_allow_list_witness :
    twoProviderConfig ≠ otherSecretsConfig ∧
    getClientConfig exampleBuild twoProviderRegistry ["gitlab", "github"] twoProviderConfig =
      getClientConfig exampleBuild twoProviderRegistry ["gitlab", "github"] otherSecretsConfig :=
  ⟨by decide,
    ((getClientConfig_allow_list exampleBuild twoProviderRegistry twoProviderConfig
      otherSecretsConfig).2.2.2 (by decide) (by decide) (List.Perm.swap _ _ _)
      ["gitlab", "github"] (List.Perm.swap _ _ _)).2⟩

/-- Counterexample to C2: a configuration with a nil settings map and one with
an empty settings map agree on every allow-listed source field and on the
(empty) set of provider names, yet under the same registry and build metadata
the first projection has `EnableSignUpWithOAuth` = `"false"` and the second
`"true"`; and one configuration with two registered providers gives two
different projections for the two orders in which `range` can visit its
settings map. -/
theorem getClientConfig_differs_on_nil_and_order :
    allowListed exampleConfig = allowListed emptySettingsConfig ∧
    providerNames exampleConfig = providerNames emptySettingsConfig ∧
    (∃ p1 p2, getClientConfig exampleBuild [] [] exampleConfig = .ok p1 ∧
      getClientConfig exampleBuild [] [] emptySettingsConfig = .ok p2 ∧
      mapLookup p1 "EnableSignUpWithOAuth" = some (.str "false") ∧
      mapLookup p2 "EnableSignUpWithOAuth" = some (.str "true") ∧ p1 ≠ p2) ∧
    ["github", "gitlab"].Perm (providerNames twoProviderConfig) ∧
    ["gitlab", "github"].Perm (providerNames twoProviderConfig) ∧
    getClientConfig exampleBuild twoProviderRegistry ["github", "gitlab"] twoProviderConfig ≠
      getClientConfig exampleBuild twoProviderRegistry ["gitlab", "github"] twoProviderConfig := by
  refine ⟨by decide, rfl, ?_, List.Perm.refl _, List.Perm.swap _ _ _, ?_⟩
  · obtain ⟨p1, h1⟩ := getClientConfig_returns exampleBuild [] [] exampleConfig
      (by simp [pointersSet, exampleConfig]) (fun _ name hn => absurd hn (List.not_mem_nil name))
    obtain ⟨p2, h2⟩ := getClientConfig_returns exampleBuild [] [] emptySettingsConfig
      (by simp [pointersSet, emptySettingsConfig, exampleConfig])
      (fun _ name hn => absurd hn (List.not_mem_nil name))
    obtain ⟨_, hnil, _⟩ := getClientConfig_ok_inv exampleBuild [] [] exampleConfig p1 h1
    obtain ⟨_, _, hsome⟩ := getClientConfig_ok_inv exampleBuild [] [] emptySettingsConfig p2 h2
    obtain ⟨_, hf1, _⟩ := hnil rfl
    obtain ⟨_, hf2, _⟩ := hsome (by simp [emptySettingsConfig])
    refine ⟨p1, p2, h1, h2, hf1, hf2, ?_⟩
    intro heq
    rw [heq, hf2] at hf1
    exact absurd hf1 (by decide)
  · have hcast : ∀ (visit : List String), (∀ name ∈ visit, name = "github" ∨ name = "gitlab") →
        ∀ name ∈ visit, castable twoProviderRegistry name := by
      intro visit hv name hn
      rcases hv name hn with rfl | rfl
      · exact Or.inr ⟨⟨"GitHub"⟩, rfl⟩
      · exact Or.inr ⟨⟨"GitLab"⟩, rfl⟩
    obtain ⟨q1, h1⟩ := getClientConfig_returns exampleBuild twoProviderRegistry
      ["github", "gitlab"] twoProviderConfig
      (by simp [pointersSet, twoProviderConfig, exampleConfig])
      (fun _ => hcast _ (by simp))
    obtain ⟨q2, h2⟩ := getClientConfig_returns exampleBuild twoProviderRegistry
      ["gitlab", "github"] twoProviderConfig
      (by simp [pointersSet, twoProviderConfig, exampleConfig])
      (fun _ => hcast _ (by simp))
    obtain ⟨_, _, hs1⟩ := getClientConfig_ok_inv _ _ _ _ q1 h1
    obtain ⟨_, _, hs2⟩ := getClientConfig_ok_inv _ _ _ _ q2 h2
    obtain ⟨_, _, hn1⟩ := hs1 (by simp [twoProviderConfig])
    obtain ⟨_, _, hn2⟩ := hs2 (by simp [twoProviderConfig])
    rw [h1, h2]
    intro heq
    have hq : q1 = q2 := by simpa using heq
    rw [hq, hn2] at hn1
    exact absurd hn1 (by decide)

/-- C3: in every projection `getClientConfig` returns, whatever the registry
holds, `EnableSignUpWithOAuth` is `"true"` exactly when `OAuthSettings` is
non-nil, and then the key `OAuthProviderDisplayNames` is present; when
`OAuthSettings` is nil the flag is `"false"` and the key is absent.  The
function returns in both cases, also when no provider name resolves. -/
theorem EnableSignUpWithOAuth_iff_settings (b : BuildInfo) (reg : Registry)
    (visit : List String) (c : Config) :
    (∀ props, getClientConfig b reg visit c = .ok props →
      (mapLookup props "EnableSignUpWithOAuth" = some (.str "true") ↔ c.OAuthSettings ≠ none) ∧
      (c.OAuthSettings ≠ none →
        mapLookup props "EnableSignUpWithOAuth" = some (.str "true") ∧
        "OAuthProviderDisplayNames" ∈ mapKeys props) ∧
      (c.OAuthSettings = none →
        mapLookup props "EnableSignUpWithOAuth" = some (.str "false") ∧
        "OAuthProviderDisplayNames" ∉ mapKeys props)) ∧
    (pointersSet c → (c.OAuthSettings ≠ none → ∀ name ∈ visit, castable reg name) →
      ∃ props, getClientConfig b reg visit c = .ok props) ∧
    (pointersSet c → (∀ name ∈ visit, GetOauthProvider reg name = none) →
      ∃ props, getClientConfig b reg visit c = .ok props ∧
        (c.OAuthSettings ≠ none →
          mapLookup props "EnableSignUpWithOAuth" = some (.str "true") ∧
          mapLookup props "OAuthProviderDisplayNames" = some (.strs []))) := by
  refine ⟨?_, ?_, ?_⟩
  · intro props h
    obtain ⟨_, hnil, hsome⟩ := getClientConfig_ok_inv b reg visit c props h
    by_cases hO : c.OAuthSettings = none
    · obtain ⟨hk, hflag, _⟩ := hnil hO
      refine ⟨?_, fun hne => absurd hO hne, fun _ => ⟨hflag, ?_⟩⟩
      · rw [hflag]
        simp [hO]
      · intro hm
        exact absurd ((hk _).mp hm) displayNames_not_always
    · obtain ⟨hk, hflag, _⟩ := hsome hO
      refine ⟨?_, fun _ => ⟨hflag, (hk _).mpr displayNames_mem_clientKeys⟩,
        fun h => absurd h hO⟩
      rw [hflag]
      simp [hO]
  · intro hp hreg
    exact getClientConfig_returns b reg visit c hp hreg
  · intro hp hreg
    obtain ⟨props, h⟩ := getClientConfig_returns b reg visit c hp
      (fun _ name hn => Or.inl (hreg name hn))
    refine ⟨props, h, fun hO => ?_⟩
    obtain ⟨_, _, hsome⟩ := getClientConfig_ok_inv b reg visit c props h
    obtain ⟨_, hflag, hnames⟩ := hsome hO
    refine ⟨hflag, ?_⟩
    rw [hnames]
    have hfm : List.filterMap (displayNameOf reg) visit = [] := by
      rw [List.filterMap_eq_nil_iff]
      intro name hn
      simp [displayNameOf, hreg name hn]
    rw [hfm]

/-- Witness of C3: with a non-nil settings map and a registry that resolves no
name, the projection is returned with the flag `"true"` and an empty list. -/
theorem EnableSignUpWithOAuth_iff_settings_witness :
    ∃ props, getClientConfig exampleBuild [] ["gitlab"] gitlabConfig = .ok props ∧
      (gitlabConfig.OAuthSettings ≠ none →
        mapLookup props "EnableSignUpWithOAuth" = some (.str "true") ∧
        mapLookup props "OAuthProviderDisplayNames" = some (.strs [])) :=
  (EnableSignUpWithOAuth_iff_settings exampleBuild [] ["gitlab"] gitlabConfig).2.2
    (by simp [pointersSet, gitlabConfig, exampleConfig])
    (by simp [GetOauthProvider, mapLookup])

/-- C4, as the code has it: when `OAuthSettings` is a non-nil map, the flag is
`"true"` and `OAuthProviderDisplayNames` lists the display names of the
settings-map entries found in the registry, entries absent from the registry
being skipped, in the order in which `range` visits the keys of the map; the
list is a permutation of the display names taken in any other order of the
keys.  The function returns whenever the pointer fields are set and every
provider name is unregistered or bound to a non-nil `*oauth.OAuthProvider`. -/
theorem OAuthProviderDisplayNames_visit_order (b : BuildInfo) (reg : Registry)
    (visit : List String) (c : Config) (m : GoMap SSOSettings)
    (hO : c.OAuthSettings = some m) (hvis : visit.Perm (mapKeys m)) :
    (∀ props, getClientConfig b reg visit c = .ok props →
      mapLookup props "EnableSignUpWithOAuth" = some (.str "true") ∧
      mapLookup props "OAuthProviderDisplayNames"
        = some (.strs (visit.filterMap (displayNameOf reg)))) ∧
    (visit.filterMap (displayNameOf reg)).Perm ((mapKeys m).filterMap (displayNameOf reg)) ∧
    (pointersSet c → (∀ name ∈ mapKeys m, castable reg name) →
      ∃ props, getClientConfig b reg visit c = .ok props) := by
  refine ⟨?_, hvis.filterMap _, ?_⟩
  · intro props h
    obtain ⟨_, _, hsome⟩ := getClientConfig_ok_inv b reg visit c props h
    obtain ⟨_, hflag, hnames⟩ := hsome (by simp [hO])
    exact ⟨hflag, hnames⟩
  · intro hp hreg
    exact getClientConfig_returns b reg visit c hp
      (fun _ name hn => hreg name (hvis.subset hn))

/-- Witness of C4 as the code has it: the two providers visited in the order
`github`, `gitlab`. -/
theorem OAuthProviderDisplayNames_visit_order_witness :
    ∃ props, getClientConfig exampleBuild twoProviderRegistry ["github", "gitlab"]
        twoProviderConfig = .ok props ∧
      mapLookup props "OAuthProviderDisplayNames" = some (.strs ["GitHub", "GitLab"]) := by
  have h := OAuthProviderDisplayNames_visit_order exampleBuild twoProviderRegistry
    ["github", "gitlab"] twoProviderConfig
    [("github", ⟨true, "gh-id", "gh-secret"⟩), ("gitlab", ⟨true, "gl-id", "gl-secret"⟩)]
    rfl (List.Perm.refl _)
  obtain ⟨props, hprops⟩ := h.2.2 (by simp [pointersSet, twoProviderConfig, exampleConfig])
    (by
      intro name hn
      simp only [mapKeys, List.map_cons, List.map_nil, List.mem_cons, List.mem_singleton,
        List.not_mem_nil, or_false] at hn
      rcases hn with rfl | rfl
      · exact Or.inr ⟨⟨"GitHub"⟩, rfl⟩
      · exact Or.inr ⟨⟨"GitLab"⟩, rfl⟩)
  exact ⟨props, hprops, (h.1 props hprops).2⟩

/-- Counterexample to C4: `github.json` then `gitlab.json` are loaded, so the
providers are registered in the order `github`, `gitlab` and both are in the
registry; when `range` visits the settings map in the order `gitlab`, `github`
the projection lists `GitLab` before `GitHub`. -/
theorem OAuthProviderDisplayNames_not_registration_order :
    loadOAuthProviders exampleEnv exampleConfig [] =
      (none, twoProviderConfig, twoProviderRegistry) ∧
    ["gitlab", "github"].Perm (providerNames twoProviderConfig) ∧
    ∃ props, getClientConfig exampleBuild twoProviderRegistry ["gitlab", "github"]
        twoProviderConfig = .ok props ∧
      mapLookup props "EnableSignUpWithOAuth" = some (.str "true") ∧
      mapLookup props "OAuthProviderDisplayNames" = some (.strs ["GitLab", "GitHub"]) ∧
      mapLookup props "OAuthProviderDisplayNames" ≠ some (.strs ["GitHub", "GitLab"]) := by
  refine ⟨by decide, List.Perm.swap _ _ _, ?_⟩
  have hcast : ∀ name ∈ ["gitlab", "github"], castable twoProviderRegistry name := by
    intro name hn
    simp only [List.mem_cons, List.mem_singleton, List.not_mem_nil, or_false] at hn
    rcases hn with rfl | rfl
    · exact Or.inr ⟨⟨"GitLab"⟩, rfl⟩
    · exact Or.inr ⟨⟨"GitHub"⟩, rfl⟩
  obtain ⟨props, hprops⟩ := getClientConfig_returns exampleBuild twoProviderRegistry
    ["gitlab", "github"] twoProviderConfig
    (by simp [pointersSet, twoProviderConfig, exampleConfig]) (fun _ => hcast)
  obtain ⟨_, _, hsome⟩ := getClientConfig_ok_inv exampleBuild twoProviderRegistry
    ["gitlab", "github"] twoProviderConfig props hprops
  obtain ⟨_, hflag, hnames⟩ := hsome (by simp [twoProviderConfig])
  have hfm : List.filterMap (displayNameOf twoProviderRegistry) ["gitlab", "github"]
      = ["GitLab", "GitHub"] := by decide
  rw [hfm] at hnames
  refine ⟨props, hprops, hflag, hnames, ?_⟩
  rw [hnames]
  decide

/-- C5, as the code has it: `getClientConfig` returns a projection exactly when
the pointer fields it dereferences are set and, for a non-nil settings map,
every visited provider name is unregistered or bound to a non-nil
`*oauth.OAuthProvider`; in particular it returns for every configuration with
the pointer fields set and every registry whose entries for the provider names
of the settings map are such providers. -/
theorem getClientConfig_returns_iff (b : BuildInfo) (reg : Registry) (visit : List String)
    (c : Config) :
    ((∃ props, getClientConfig b reg visit c = .ok props) ↔
      pointersSet c ∧ (c.OAuthSettings ≠ none → ∀ name ∈ visit, castable reg name)) ∧
    (pointersSet c → visit.Perm (providerNames c) →
      (∀ name ∈ providerNames c, castable reg name) →
      ∃ props, getClientConfig b reg visit c = .ok props) := by
  refine ⟨⟨?_, ?_⟩, ?_⟩
  · rintro ⟨props, h⟩
    exact ⟨(getClientConfig_ok_inv b reg visit c props h).1,
      getClientConfig_ok_castable b reg visit c props h⟩
  · rintro ⟨hp, hreg⟩
    exact getClientConfig_returns b reg visit c hp hreg
  · intro hp hvis hreg
    exact getClientConfig_returns b reg visit c hp
      (fun _ name hn => hreg name (hvis.subset hn))

/-- Witness of C5 as the code has it: the validated example configuration with
the two loaded providers. -/
theorem getClientConfig_returns_iff_witness :
    ∃ props, getClientConfig exampleBuild twoProviderRegistry ["gitlab", "github"]
      twoProviderConfig = .ok props :=
  (getClientConfig_returns_iff exampleBuild twoProviderRegistry ["gitlab", "github"]
    twoProviderConfig).2 (by simp [pointersSet, twoProviderConfig, exampleConfig])
    (List.Perm.swap _ _ _)
    (by
      intro name hn
      simp only [providerNames, twoProviderConfig, mapKeys, List.map_cons, List.map_nil,
        List.mem_cons, List.mem_singleton, List.not_mem_nil, or_false] at hn
      rcases hn with rfl | rfl
      · exact Or.inr ⟨⟨"GitHub"⟩, rfl⟩
      · exact Or.inr ⟨⟨"GitLab"⟩, rfl⟩)

/-- Counterexample to C5: the configuration passes `SetDefaults` and `IsValid`
and has every pointer field set, its settings map names `gitlab`, and the
registry binds `gitlab` to a provider of another type; the downcast of line 264
panics. -/
theorem getClientConfig_panics_on_foreign_provider :
    exampleEnv.IsValid (exampleEnv.SetDefaults gitlabConfig) = none ∧
    exampleEnv.SetDefaults gitlabConfig = gitlabConfig ∧
    gitlabConfig.TeamSettings.RestrictTeamNames ≠ none ∧
    gitlabConfig.TeamSettings.EnableTeamListing ≠ none ∧
    gitlabConfig.ServiceSettings.EnableDeveloper ≠ none ∧
    gitlabConfig.SupportSettings.TermsOfServiceLink ≠ none ∧
    gitlabConfig.SupportSettings.PrivacyPolicyLink ≠ none ∧
    gitlabConfig.SupportSettings.AboutLink ≠ none ∧
    gitlabConfig.SupportSettings.HelpLink ≠ none ∧
    gitlabConfig.SupportSettings.ReportAProblemLink ≠ none ∧
    gitlabConfig.SupportSettings.SupportEmail ≠ none ∧
    gitlabConfig.LdapSettings.Enable ≠ none ∧
    getClientConfig exampleBuild foreignRegistry ["gitlab"] gitlabConfig =
      .error ("interface conversion: einterfaces.OauthProvider is *gitlab.GitLabProvider, " ++
        "not *oauth.OAuthProvider") := by
  refine ⟨rfl, rfl, by decide, by decide, by decide, by decide, by decide, by decide,
    by decide, by decide, by decide, by decide, ?_⟩
  rfl

/-! ## Load orchestration -/

/-- C1: when opening, decoding or stat-ing the resolved file fails, or `IsValid`
reports an error on the decoded configuration after `SetDefaults`, `LoadConfig`
panics and `Cfg`, `ClientCfg` and the registry are what they were before the
call; otherwise the file opened and decoded, `IsValid` returned no error on the
configuration after `SetDefaults`, and `Cfg` is that configuration (with the
loaded providers merged and the directory normalised); and when the call
returns, `ClientCfg` is the projection of the published `Cfg`. -/
theorem LoadConfig_fail_fast (env : Env) (fileName : String) (w : World) :
    (loadFails env (FindConfigFile env fileName) →
      ∃ msg, (LoadConfig env fileName w).1 = .panicked msg ∧
        (LoadConfig env fileName w).2.Cfg = w.Cfg ∧
        (LoadConfig env fileName w).2.ClientCfg = w.ClientCfg ∧
        (LoadConfig env fileName w).2.oauthProviders = w.oauthProviders) ∧
    (¬ loadFails env (FindConfigFile env fileName) →
      ∃ file config, env.osOpen (FindConfigFile env fileName) = .ok file ∧
        file.decoded = .ok config ∧
        env.IsValid (env.SetDefaults config) = none ∧
        (LoadConfig env fileName w).2.Cfg =
          normalizeDirectory
            (loadOAuthProviders env (env.SetDefaults config) w.oauthProviders).2.1) ∧
    ((LoadConfig env fileName w).1 = .returned →
      getClientConfig env.build (LoadConfig env fileName w).2.oauthProviders
        (visitOrder env (LoadConfig env fileName w).2.Cfg) (LoadConfig env fileName w).2.Cfg
        = .ok (LoadConfig env fileName w).2.ClientCfg) := by
  cases hop : env.osOpen (FindConfigFile env fileName) with
  | error err => simp [LoadConfig, loadFails, hop]
  | ok file =>
    cases hdec : file.decoded with
    | error err => simp [LoadConfig, loadFails, hop, hdec]
    | ok config =>
      cases hmt : file.modTime with
      | error err => simp [LoadConfig, loadFails, hop, hdec, hmt]
      | ok modTime =>
        cases hv : env.IsValid (env.SetDefaults config) with
        | some message => simp [LoadConfig, loadFails, hop, hdec, hmt, hv]
        | none =>
          cases hg : getClientConfig env.build
              (loadOAuthProviders env (env.SetDefaults config) w.oauthProviders).2.2
              (visitOrder env (normalizeDirectory
                (loadOAuthProviders env (env.SetDefaults config) w.oauthProviders).2.1))
              (normalizeDirectory
                (loadOAuthProviders env (env.SetDefaults config) w.oauthProviders).2.1) with
          | error msg => simp [LoadConfig, loadFails, hop, hdec, hmt, hv, hg]
          | ok props => simp [LoadConfig, loadFails, hop, hdec, hmt, hv, hg]

/-- Witness of C1: a file that cannot be opened, and a configuration the
validator rejects; both calls panic and leave `Cfg` and `ClientCfg` as they
were. -/
theorem LoadConfig_fail_fast_witness :
    (∃ msg, (LoadConfig exampleEnv "missing.json" initialWorld).1 = .panicked msg ∧
      (LoadConfig exampleEnv "missing.json" initialWorld).2.Cfg = initialWorld.Cfg ∧
      (LoadConfig exampleEnv "missing.json" initialWorld).2.ClientCfg = initialWorld.ClientCfg ∧
      (LoadConfig exampleEnv "missing.json" initialWorld).2.oauthProviders
        = initialWorld.oauthProviders) ∧
    (∃ msg, (LoadConfig rejectingEnv "config.json" initialWorld).1 = .panicked msg ∧
      (LoadConfig rejectingEnv "config.json" initialWorld).2.Cfg = initialWorld.Cfg ∧
      (LoadConfig rejectingEnv "config.json" initialWorld).2.ClientCfg = initialWorld.ClientCfg ∧
      (LoadConfig rejectingEnv "config.json" initialWorld).2.oauthProviders
        = initialWorld.oauthProviders) :=
  ⟨(LoadConfig_fail_fast exampleEnv "missing.json" initialWorld).1
      (Or.inl ⟨"no such file or directory", rfl⟩),
    (LoadConfig_fail_fast rejectingEnv "config.json" initialWorld).1
      (Or.inr ⟨⟨.ok exampleConfig, .ok 1451606400⟩, rfl,
        Or.inr (Or.inr ⟨exampleConfig, "Invalid maximum users per team for team settings",
          rfl, rfl⟩)⟩)⟩

/-- A successful load of the example: the call returns, the published
configuration holds the two loaded providers and the normalised directory. -/
theorem LoadConfig_example_run :
    (LoadConfig exampleEnv "config.json" initialWorld).1 = .returned ∧
    (LoadConfig exampleEnv "config.json" initialWorld).2.Cfg =
      { twoProviderConfig with
        FileSettings := { twoProviderConfig.FileSettings with Directory := "uploads/" } } ∧
    (LoadConfig exampleEnv "config.json" initialWorld).2.CfgFileName
      = "/opt/platform/config/config.json" ∧
    (LoadConfig exampleEnv "config.json" initialWorld).2.oauthProviders = twoProviderRegistry := by
  refine ⟨by rfl, by rfl, by rfl, by rfl⟩

end Platform
